import Mathlib

/-!
Shallow embedding of the halo2 multiplication-circuit example
(`src/Multiplication/src/main.rs`) and of the fragment of the halo2
framework that the example exercises.

The framework pieces (constraint-system builder, layouter, mock prover)
are external dependencies of the repository; they are modelled here with
explicit state passing:

* `ConstraintSystem` is the builder mutated by `configure`: it counts the
  allocated advice / selector / instance columns, records which columns
  have equality enabled, and collects the registered gates.
* Gate polynomials are an `Expression` AST, queried exactly the way the
  source closure queries them (`query_selector`, `query_advice` at
  `Rotation.cur`).
* `LayouterState` is the synthesis-time assignment trace produced by a
  simple floor planner: enabled selectors, assigned advice cells and
  copy (equality) constraints against the instance column, over `n = 2^k`
  rows.  Assignments prepend to the trace, so the most recent write to a
  cell is found first.
* `MockProver.run` configures on a fresh builder, synthesizes the circuit
  and packages the result; `MockProver.satisfied` states that every gate
  polynomial vanishes on every row and every copy constraint holds
  against the public instance values.
-/

/-- A column reference, as used for equality (permutation) enablement:
either an advice column or an instance column, identified by its
allocation index. -/
inductive Col where
  | advice : Nat → Col
  | inst : Nat → Col
deriving DecidableEq

/-- Gate polynomial AST, mirroring halo2 `Expression`: constants,
selector queries, advice queries at a rotation, negation, sum and
product. -/
inductive Expression (F : Type) where
  | const : F → Expression F
  | selectorQ : Nat → Expression F
  | adviceQ : Nat → Int → Expression F
  | neg : Expression F → Expression F
  | add : Expression F → Expression F → Expression F
  | mul : Expression F → Expression F → Expression F
deriving DecidableEq

instance {F : Type} : Neg (Expression F) := ⟨Expression.neg⟩

instance {F : Type} : Add (Expression F) := ⟨Expression.add⟩

instance {F : Type} : Mul (Expression F) := ⟨Expression.mul⟩

/-- halo2 expression subtraction is sum with a negated right operand. -/
instance {F : Type} : Sub (Expression F) := ⟨fun x y => Expression.add x (Expression.neg y)⟩

/-- `Rotation::cur()`: the current row. -/
def Rotation.cur : Int := 0

/-- A named gate: a list of polynomial constraints that must vanish on
every row (selectors gate them off where disabled). -/
structure Gate (F : Type) where
  name : String
  polys : List (Expression F)
deriving DecidableEq

/-- The constraint-system builder (`meta` in the source). -/
structure ConstraintSystem (F : Type) where
  num_advice : Nat
  num_selectors : Nat
  num_instance : Nat
  equality : List Col
  gates : List (Gate F)
deriving DecidableEq

/-- The fresh builder handed to `configure` by the framework. -/
def ConstraintSystem.empty (F : Type) : ConstraintSystem F :=
  ⟨0, 0, 0, [], []⟩

/-- `meta.advice_column()`: allocate the next advice column. -/
def ConstraintSystem.advice_column {F : Type} (meta : ConstraintSystem F) :
    Nat × ConstraintSystem F :=
  (meta.num_advice, { meta with num_advice := meta.num_advice + 1 })

/-- `meta.selector()`: allocate the next selector. -/
def ConstraintSystem.selector {F : Type} (meta : ConstraintSystem F) :
    Nat × ConstraintSystem F :=
  (meta.num_selectors, { meta with num_selectors := meta.num_selectors + 1 })

/-- `meta.instance_column()`: allocate the next instance column. -/
def ConstraintSystem.instance_column {F : Type} (meta : ConstraintSystem F) :
    Nat × ConstraintSystem F :=
  (meta.num_instance, { meta with num_instance := meta.num_instance + 1 })

/-- `meta.enable_equality(col)`: admit the column into the permutation
(equality) argument. -/
def ConstraintSystem.enable_equality {F : Type} (meta : ConstraintSystem F) (c : Col) :
    ConstraintSystem F :=
  { meta with equality := meta.equality ++ [c] }

/-- `meta.create_gate(name, polys)`: register a gate.  The source builds
the polynomial list in a closure over the query context; the closure is
invoked once at configuration time, so its result is passed directly. -/
def ConstraintSystem.create_gate {F : Type} (meta : ConstraintSystem F)
    (name : String) (polys : List (Expression F)) : ConstraintSystem F :=
  { meta with gates := meta.gates ++ [⟨name, polys⟩] }

/-- `meta.query_selector(s)` inside a gate closure. -/
def query_selector (F : Type) (s : Nat) : Expression F :=
  Expression.selectorQ s

/-- `meta.query_advice(col, rot)` inside a gate closure. -/
def query_advice (F : Type) (col : Nat) (rot : Int) : Expression F :=
  Expression.adviceQ col rot

/-- Synthesis or verification errors surfaced by the framework. -/
inductive Error where
  | NotEnoughRowsAvailable : Error
  | ColumnNotInPermutation : Error
  | BoundsFailure : Error
  | InvalidInstances : Error
deriving DecidableEq

/-- A value placed at a (column, row) coordinate, remembering its
position so it can later be constrained to an instance cell. -/
structure AssignedCell (F : Type) where
  value : F
  col : Nat
  row : Nat
deriving DecidableEq

/-- The layouter-visible assignment state: `n` rows in all, a simple
floor-planner cursor `regions_start` for the next free row, the columns
enabled for equality, and the synthesis trace (enabled selectors,
advice assignments, copy constraints onto the instance column).  Newer
assignments are prepended. -/
structure LayouterState (F : Type) where
  n : Nat
  regions_start : Nat
  equality : List Col
  enabled_selectors : List (Nat × Nat)
  advice : List (Nat × Nat × F)
  copies : List ((Nat × Nat) × (Nat × Nat))
deriving DecidableEq

/-- `selector.enable(region, offset)` at absolute row `row`. -/
def LayouterState.enable_selector {F : Type} (st : LayouterState F) (s row : Nat) :
    Except Error (LayouterState F) :=
  if row < st.n then
    .ok { st with enabled_selectors := (s, row) :: st.enabled_selectors }
  else .error .NotEnoughRowsAvailable

/-- `region.assign_advice(col, offset, value)` at absolute row `row`. -/
def LayouterState.assign_advice {F : Type} (st : LayouterState F) (col row : Nat) (v : F) :
    Except Error (AssignedCell F × LayouterState F) :=
  if row < st.n then
    .ok (⟨v, col, row⟩, { st with advice := (col, row, v) :: st.advice })
  else .error .NotEnoughRowsAvailable

/-- Configuration produced by the chip: three advice columns, a
selector, and an instance column. -/
structure MultiplicationConfig where
  a : Nat
  b : Nat
  c : Nat
  selector : Nat
  inst : Nat
deriving DecidableEq

/-- The multiplication chip; the source stores the configuration plus a
zero-sized field marker. -/
structure MultiplicationChip (F : Type) where
  config : MultiplicationConfig
deriving DecidableEq

/-- `MultiplicationChip::construct`. -/
def MultiplicationChip.construct (F : Type) (config : MultiplicationConfig) :
    MultiplicationChip F :=
  ⟨config⟩

/-- `MultiplicationChip::configure`: allocate columns `a`, `b`, `c`,
a selector and an instance column, enable equality on all four columns,
and register the "multiplication" gate `s * (a * b - c)`. -/
def MultiplicationChip.configure {F : Type} (meta : ConstraintSystem F) :
    MultiplicationConfig × ConstraintSystem F :=
  let (a, meta) := meta.advice_column
  let (b, meta) := meta.advice_column
  let (c, meta) := meta.advice_column
  let (selector, meta) := meta.selector
  let (inst, meta) := meta.instance_column
  let meta := meta.enable_equality (Col.advice a)
  let meta := meta.enable_equality (Col.advice b)
  let meta := meta.enable_equality (Col.advice c)
  let meta := meta.enable_equality (Col.inst inst)
  let s := query_selector F selector
  let ea := query_advice F a Rotation.cur
  let eb := query_advice F b Rotation.cur
  let ec := query_advice F c Rotation.cur
  let meta := meta.create_gate "multiplication" [s * (ea * eb - ec)]
  (⟨a, b, c, selector, inst⟩, meta)

/-- `MultiplicationChip::assign`: inside one region (placed at the floor
planner's next free row), enable the selector at offset 0, assign `a`,
`b` at offset 0, compute `c = a * b` and assign it at offset 0, and
return the cell holding `c`.  The region occupies one row, so the
cursor advances by one. -/
def MultiplicationChip.assign {F : Type} [Mul F] (chip : MultiplicationChip F)
    (st : LayouterState F) (a b : F) :
    Except Error (AssignedCell F × LayouterState F) := do
  let r0 := st.regions_start
  let st ← st.enable_selector chip.config.selector r0
  let (_, st) ← st.assign_advice chip.config.a r0 a
  let (_, st) ← st.assign_advice chip.config.b r0 b
  let (cell, st) ← st.assign_advice chip.config.c r0 (a * b)
  .ok (cell, { st with regions_start := r0 + 1 })

/-- `MultiplicationChip::expose_public`: `constrain_instance` on the
given cell against the instance column at the given row.  The
permutation argument rejects columns that were not enabled for
equality, and rows outside the table. -/
def MultiplicationChip.expose_public {F : Type} (chip : MultiplicationChip F)
    (st : LayouterState F) (cell : AssignedCell F) (row : Nat) :
    Except Error (LayouterState F) :=
  if Col.advice cell.col ∈ st.equality ∧ Col.inst chip.config.inst ∈ st.equality then
    if cell.row < st.n ∧ row < st.n then
      .ok { st with copies := ((cell.col, cell.row), (chip.config.inst, row)) :: st.copies }
    else .error .BoundsFailure
  else .error .ColumnNotInPermutation

/-- The circuit: the pair of private witnesses. -/
structure MultiplicationCircuit (F : Type) where
  a : F
  b : F
deriving DecidableEq

/-- `derive(Default)`: both witness fields take the field's default,
which is zero. -/
def MultiplicationCircuit.default (F : Type) [Zero F] : MultiplicationCircuit F :=
  ⟨0, 0⟩

/-- `Circuit::without_witnesses`. -/
def MultiplicationCircuit.without_witnesses {F : Type} [Zero F]
    (self : MultiplicationCircuit F) : MultiplicationCircuit F :=
  MultiplicationCircuit.default F

/-- `Circuit::configure`: delegates to the chip. -/
def MultiplicationCircuit.configure {F : Type} (meta : ConstraintSystem F) :
    MultiplicationConfig × ConstraintSystem F :=
  MultiplicationChip.configure meta

/-- `Circuit::synthesize`: construct the chip, assign the witnesses to
obtain the cell holding the product, and expose it at instance row 0.
Errors from either step abort synthesis immediately. -/
def MultiplicationCircuit.synthesize {F : Type} [Mul F]
    (self : MultiplicationCircuit F) (config : MultiplicationConfig)
    (st : LayouterState F) : Except Error (LayouterState F) := do
  let chip := MultiplicationChip.construct F config
  let (c, st) ← chip.assign st self.a self.b
  let st ← chip.expose_public st c 0
  .ok st

/-- The packaged result of a mock-prover run. -/
structure MockProver (F : Type) where
  cs : ConstraintSystem F
  st : LayouterState F
  instances : List (List F)
deriving DecidableEq

/-- `MockProver::run(k, circuit, instances)`: configure on a fresh
builder, reject an instance-column count mismatch, and synthesize over
`2 ^ k` rows starting from an empty trace. -/
def MockProver.run {F : Type} [Mul F] (k : Nat) (circuit : MultiplicationCircuit F)
    (instances : List (List F)) : Except Error (MockProver F) :=
  let p := MultiplicationCircuit.configure (F := F) (ConstraintSystem.empty F)
  if instances.length = p.2.num_instance then do
    let st0 : LayouterState F :=
      ⟨2 ^ k, 0, p.2.equality, [], [], []⟩
    let st ← circuit.synthesize p.1 st0
    .ok ⟨p.2, st, instances⟩
  else .error .InvalidInstances

/-- The value of an advice cell in the trace; unassigned cells read as
zero (they only ever occur where the gating selector is off). -/
def LayouterState.adviceValue {F : Type} [Zero F] (st : LayouterState F)
    (col row : Nat) : F :=
  ((st.advice.find? fun t => t.1 == col && t.2.1 == row).map fun t => t.2.2).getD 0

/-- The public value at (instance column, row); instance columns are
zero-padded to the full table height. -/
def instanceValue {F : Type} [Zero F] (instances : List (List F))
    (col row : Nat) : F :=
  ((instances[col]?.getD [])[row]?).getD 0

/-- Evaluate a gate polynomial on a row of the trace. -/
def Expression.eval {F : Type} [CommRing F] (st : LayouterState F)
    (instances : List (List F)) (row : Nat) : Expression F → F
  | .const v => v
  | .selectorQ s => if (s, row) ∈ st.enabled_selectors then 1 else 0
  | .adviceQ col rot => st.adviceValue col (Int.toNat ((row : Int) + rot))
  | .neg e => - (e.eval st instances row)
  | .add e₁ e₂ => e₁.eval st instances row + e₂.eval st instances row
  | .mul e₁ e₂ => e₁.eval st instances row * e₂.eval st instances row

/-- Every polynomial of every gate vanishes on every row. -/
def MockProver.gatesSatisfied {F : Type} [CommRing F] (pr : MockProver F) : Prop :=
  ∀ g ∈ pr.cs.gates, ∀ e ∈ g.polys, ∀ row < pr.st.n,
    e.eval pr.st pr.instances row = 0

/-- Every copy constraint equates the advice cell with the public
instance value it was bound to. -/
def MockProver.copiesSatisfied {F : Type} [CommRing F] (pr : MockProver F) : Prop :=
  ∀ cp ∈ pr.st.copies,
    pr.st.adviceValue cp.1.1 cp.1.2 = instanceValue pr.instances cp.2.1 cp.2.2

/-- `assert_satisfied`: all gate and copy constraints hold. -/
def MockProver.satisfied {F : Type} [CommRing F] (pr : MockProver F) : Prop :=
  pr.gatesSatisfied ∧ pr.copiesSatisfied

/-- The constraint system produced by configuring on a fresh builder. -/
def mulCS (F : Type) : ConstraintSystem F :=
  ⟨3, 1, 1, [Col.advice 0, Col.advice 1, Col.advice 2, Col.inst 0],
   [⟨"multiplication",
     [Expression.mul (Expression.selectorQ 0)
       (Expression.add
         (Expression.mul (Expression.adviceQ 0 0) (Expression.adviceQ 1 0))
         (Expression.neg (Expression.adviceQ 2 0)))]⟩]⟩

/-- The synthesis trace left by the circuit on witnesses `(a, b)` over
`2 ^ 4 = 16` rows. -/
def mulTrace {F : Type} [Mul F] (a b : F) : LayouterState F :=
  ⟨16, 1, [Col.advice 0, Col.advice 1, Col.advice 2, Col.inst 0],
   [(0, 0)],
   [(2, 0, a * b), (1, 0, b), (0, 0, a)],
   [((2, 0), (0, 0))]⟩

theorem mockProver_run_eq {F : Type} [CommRing F] (a b : F) (pubs : List F) :
    MockProver.run 4 ⟨a, b⟩ [pubs] = .ok ⟨mulCS F, mulTrace a b, [pubs]⟩ := rfl

theorem mulTrace_gatesSatisfied {F : Type} [CommRing F] (a b : F) (pubs : List F) :
    MockProver.gatesSatisfied ⟨mulCS F, mulTrace a b, [pubs]⟩ := by
  intro g hg e he row hrow
  simp only [mulCS, List.mem_singleton] at hg
  subst hg
  simp only [List.mem_singleton] at he
  subst he
  by_cases h0 : row = 0
  · subst h0
    show (1 : F) * (a * b + -(a * b)) = 0
    ring
  · have hs : Expression.eval (F := F) (mulTrace a b) [pubs] row (.selectorQ 0) = 0 := by
      simp [Expression.eval, mulTrace, h0]
    show Expression.eval (F := F) (mulTrace a b) [pubs] row (.selectorQ 0) *
        Expression.eval (F := F) (mulTrace a b) [pubs] row
          (.add (.mul (.adviceQ 0 0) (.adviceQ 1 0)) (.neg (.adviceQ 2 0))) = 0
    rw [hs, zero_mul]

theorem mulTrace_copiesSatisfied_iff {F : Type} [CommRing F] (a b p : F) :
    MockProver.copiesSatisfied ⟨mulCS F, mulTrace a b, [[p]]⟩ ↔ a * b = p := by
  constructor
  · intro h
    have := h ((2, 0), (0, 0)) (by simp [mulTrace])
    simpa [LayouterState.adviceValue, mulTrace, instanceValue] using this
  · intro h cp hcp
    simp only [mulTrace, List.mem_singleton] at hcp
    subst hcp
    simpa [LayouterState.adviceValue, mulTrace, instanceValue] using h

/-- C1: Completeness.  For every pair of field elements `a` and `b`,
synthesizing the multiplication circuit with witnesses `(a, b)` —
assigning them via the chip and exposing the resulting cell — and then
verifying against the public input sequence `[a * b]` succeeds: the
mock-prover run returns a prover whose gate and copy constraints are
all satisfied. -/
theorem multiplication_completeness {F : Type} [Field F] (a b : F) :
    ∃ pr : MockProver F,
      MockProver.run 4 ⟨a, b⟩ [[a * b]] = .ok pr ∧ pr.satisfied := by
  refine ⟨⟨mulCS F, mulTrace a b, [[a * b]]⟩, mockProver_run_eq a b [a * b], ?_, ?_⟩
  · exact mulTrace_gatesSatisfied a b [a * b]
  · exact (mulTrace_copiesSatisfied_iff a b (a * b)).mpr rfl

/-- C2: Soundness.  For every pair of field elements `a` and `b` and
every public input `p`, the mock-prover run on public inputs `[p]`
succeeds in synthesis, its gate constraints always hold, and the full
constraint check is satisfied exactly when `p = a * b` — so
verification fails (an unsatisfied copy constraint against the
instance) if and only if the supplied public value differs from
`a * b`. -/
theorem multiplication_soundness {F : Type} [Field F] (a b p : F) :
    ∃ pr : MockProver F,
      MockProver.run 4 ⟨a, b⟩ [[p]] = .ok pr ∧ pr.gatesSatisfied ∧
      (pr.satisfied ↔ p = a * b) := by
  refine ⟨⟨mulCS F, mulTrace a b, [[p]]⟩, mockProver_run_eq a b [p],
    mulTrace_gatesSatisfied a b [p], ?_, ?_⟩
  · intro h
    exact ((mulTrace_copiesSatisfied_iff a b p).mp h.2).symm
  · intro h
    exact ⟨mulTrace_gatesSatisfied a b [p],
      (mulTrace_copiesSatisfied_iff a b p).mpr h.symm⟩

/-- C3: `configure`, applied to any constraint-system builder, allocates
exactly three advice columns (at the next three indices) and one
instance column (and one selector), enables equality support on exactly
those four columns, and registers exactly one new gate whose single
polynomial is `selector * (a * b - c)` queried at the current row
(rotation 0).  The function is total, so it never fails. -/
theorem configure_allocation {F : Type} [Field F] (meta : ConstraintSystem F) :
    (MultiplicationChip.configure meta).1 =
      ⟨meta.num_advice, meta.num_advice + 1, meta.num_advice + 2,
       meta.num_selectors, meta.num_instance⟩ ∧
    (MultiplicationChip.configure meta).2.num_advice = meta.num_advice + 3 ∧
    (MultiplicationChip.configure meta).2.num_selectors = meta.num_selectors + 1 ∧
    (MultiplicationChip.configure meta).2.num_instance = meta.num_instance + 1 ∧
    (MultiplicationChip.configure meta).2.equality =
      meta.equality ++
        [Col.advice (MultiplicationChip.configure meta).1.a,
         Col.advice (MultiplicationChip.configure meta).1.b,
         Col.advice (MultiplicationChip.configure meta).1.c,
         Col.inst (MultiplicationChip.configure meta).1.inst] ∧
    (MultiplicationChip.configure meta).2.gates =
      meta.gates ++
        [⟨"multiplication",
          [Expression.mul
            (Expression.selectorQ (MultiplicationChip.configure meta).1.selector)
            (Expression.add
              (Expression.mul
                (Expression.adviceQ (MultiplicationChip.configure meta).1.a 0)
                (Expression.adviceQ (MultiplicationChip.configure meta).1.b 0))
              (Expression.neg
                (Expression.adviceQ (MultiplicationChip.configure meta).1.c 0)))]⟩] := by
  refine ⟨rfl, rfl, rfl, rfl, ?_, rfl⟩
  simp [MultiplicationChip.configure, ConstraintSystem.advice_column,
    ConstraintSystem.selector, ConstraintSystem.instance_column,
    ConstraintSystem.enable_equality, ConstraintSystem.create_gate]

/-- C4: `assign` is the one-region, one-row operation: when the region
row is available it enables the selector on that row, places `a` and
`b` into their columns on that row, places `c = a * b` (field
multiplication) into the third advice column of the same row, and
returns the assigned cell holding `c` (column `config.c`, not the cell
of `a` or `b`); it fails — with the framework's row-allocation error —
exactly when the region's row does not fit in the table. -/
theorem assign_spec {F : Type} [Field F] (config : MultiplicationConfig)
    (st : LayouterState F) (a b : F) :
    MultiplicationChip.assign (MultiplicationChip.construct F config) st a b =
      (if st.regions_start < st.n then
        .ok (⟨a * b, config.c, st.regions_start⟩,
          { st with
              enabled_selectors :=
                (config.selector, st.regions_start) :: st.enabled_selectors,
              advice := (config.c, st.regions_start, a * b) ::
                (config.b, st.regions_start, b) ::
                (config.a, st.regions_start, a) :: st.advice,
              regions_start := st.regions_start + 1 })
      else .error .NotEnoughRowsAvailable) := by
  by_cases h : st.regions_start < st.n <;>
    simp [MultiplicationChip.assign, MultiplicationChip.construct,
      LayouterState.enable_selector, LayouterState.assign_advice, h,
      bind, Except.bind]

/-- C5: `synthesize` constructs the chip from the configuration, calls
`assign` on the circuit's witnesses, then exposes the returned cell at
instance row 0; it propagates the first error as its own result —
an `assign` error short-circuits before `expose_public` runs, an
`expose_public` error is returned as is — and when both steps succeed
it returns the final state with no further action. -/
theorem synthesize_sequencing {F : Type} [Field F]
    (circuit : MultiplicationCircuit F) (config : MultiplicationConfig)
    (st : LayouterState F) :
    (∀ e, MultiplicationChip.assign (MultiplicationChip.construct F config)
        st circuit.a circuit.b = .error e →
      circuit.synthesize config st = .error e) ∧
    (∀ cell st₁ e,
      MultiplicationChip.assign (MultiplicationChip.construct F config)
        st circuit.a circuit.b = .ok (cell, st₁) →
      MultiplicationChip.expose_public (MultiplicationChip.construct F config)
        st₁ cell 0 = .error e →
      circuit.synthesize config st = .error e) ∧
    (∀ cell st₁ st₂,
      MultiplicationChip.assign (MultiplicationChip.construct F config)
        st circuit.a circuit.b = .ok (cell, st₁) →
      MultiplicationChip.expose_public (MultiplicationChip.construct F config)
        st₁ cell 0 = .ok st₂ →
      circuit.synthesize config st = .ok st₂) := by
  refine ⟨?_, ?_, ?_⟩
  · intro e h
    simp [MultiplicationCircuit.synthesize, h, bind, Except.bind]
  · intro cell st₁ e h₁ h₂
    simp [MultiplicationCircuit.synthesize, h₁, h₂, bind, Except.bind]
  · intro cell st₁ st₂ h₁ h₂
    simp [MultiplicationCircuit.synthesize, h₁, h₂, bind, Except.bind]

/-- The configuration produced on a fresh builder: advice columns 0, 1,
2, selector 0, instance column 0. -/
def demoConfig : MultiplicationConfig := ⟨0, 1, 2, 0, 0⟩

/-- The four columns enabled for equality by `configure`. -/
def demoEquality : List Col :=
  [Col.advice 0, Col.advice 1, Col.advice 2, Col.inst 0]

/-- A fresh 16-row layouter state over `ZMod 5`. -/
def demoState : LayouterState (ZMod 5) :=
  ⟨16, 0, demoEquality, [], [], []⟩

/-- The cell returned by `assign` on witnesses `(3, 4)`: value
`3 * 4 = 2` in `ZMod 5`, in advice column 2 at row 0. -/
def demoCell : AssignedCell (ZMod 5) := ⟨2, 2, 0⟩

/-- The state after `assign demoState 3 4`. -/
def demoMid : LayouterState (ZMod 5) :=
  ⟨16, 1, demoEquality, [(0, 0)], [(2, 0, 2), (1, 0, 4), (0, 0, 3)], []⟩

/-- The state after additionally exposing `demoCell` at instance row 0. -/
def demoFinal : LayouterState (ZMod 5) :=
  ⟨16, 1, demoEquality, [(0, 0)], [(2, 0, 2), (1, 0, 4), (0, 0, 3)],
   [((2, 0), (0, 0))]⟩

/-- Witness for C5: on the concrete circuit `(3, 4)` over `ZMod 5`,
both steps succeed and `synthesize` returns the final state. -/
theorem synthesize_sequencing_witness :
    MultiplicationCircuit.synthesize (F := ZMod 5) ⟨3, 4⟩ demoConfig demoState =
      .ok demoFinal := by
  haveI : Fact (Nat.Prime 5) := ⟨by norm_num⟩
  exact (synthesize_sequencing ⟨3, 4⟩ demoConfig demoState).2.2
    demoCell demoMid demoFinal rfl rfl

/-- C6: every proof instance exposes exactly one public value.  The
mock-prover run records exactly one copy constraint — the product cell
(advice column 2, row 0) bound to instance column 0 at the fixed row
index 0 — the constraint system holds exactly one instance column, the
verifier-facing public input sequence is the single entry `p`, and the
copy constraints are satisfied precisely when that entry equals
`a * b`, the value exposed at instance row 0. -/
theorem single_public_exposure {F : Type} [Field F] (a b p : F) :
    ∃ pr : MockProver F,
      MockProver.run 4 ⟨a, b⟩ [[p]] = .ok pr ∧
      pr.cs.num_instance = 1 ∧
      pr.instances = [[p]] ∧
      pr.st.copies = [((2, 0), (0, 0))] ∧
      (pr.copiesSatisfied ↔ p = a * b) := by
  refine ⟨⟨mulCS F, mulTrace a b, [[p]]⟩, mockProver_run_eq a b [p],
    rfl, rfl, rfl, ?_, ?_⟩
  · intro h
    exact ((mulTrace_copiesSatisfied_iff a b p).mp h).symm
  · intro h
    exact (mulTrace_copiesSatisfied_iff a b p).mpr h.symm

/-- C7: noninterference of the shape pass.  `without_witnesses` returns
the same circuit for any two instances, whatever their witness values:
the default instance with zero witnesses.  The witness-independent
key-generation pass therefore cannot depend on the real inputs. -/
theorem without_witnesses_constant {F : Type} [Field F]
    (x y : MultiplicationCircuit F) :
    x.without_witnesses = y.without_witnesses ∧
    x.without_witnesses = MultiplicationCircuit.default F ∧
    x.without_witnesses = ⟨0, 0⟩ :=
  ⟨rfl, rfl, rfl⟩

/-- Strip the allocation bases from a gate expression, leaving the
relative shape of the queried columns and selectors. -/
def Expression.relativize {F : Type} (advBase selBase : Nat) :
    Expression F → Expression F
  | .const v => .const v
  | .selectorQ s => .selectorQ (s - selBase)
  | .adviceQ col rot => .adviceQ (col - advBase) rot
  | .neg e => .neg (e.relativize advBase selBase)
  | .add e₁ e₂ => .add (e₁.relativize advBase selBase) (e₂.relativize advBase selBase)
  | .mul e₁ e₂ => .mul (e₁.relativize advBase selBase) (e₂.relativize advBase selBase)

/-- Strip the allocation bases from a column reference. -/
def Col.relativize (advBase instBase : Nat) : Col → Col
  | .advice i => .advice (i - advBase)
  | .inst i => .inst (i - instBase)

/-- Strip the allocation bases from a gate. -/
def Gate.relativize {F : Type} (advBase selBase : Nat) (g : Gate F) : Gate F :=
  ⟨g.name, g.polys.map (Expression.relativize advBase selBase)⟩

/-- The structural layout one call of `configure` adds to a builder:
the configuration, the advice / selector / instance column-count
deltas, the newly equality-enabled columns, and the new gates — all
expressed relative to the builder's allocation state, so two layouts
with the same shape compare equal. -/
def configureShape {F : Type} (meta : ConstraintSystem F) :
    MultiplicationConfig × (Nat × Nat × Nat) × List Col × List (Gate F) :=
  let p := MultiplicationChip.configure meta
  (⟨p.1.a - meta.num_advice, p.1.b - meta.num_advice, p.1.c - meta.num_advice,
    p.1.selector - meta.num_selectors, p.1.inst - meta.num_instance⟩,
   (p.2.num_advice - meta.num_advice, p.2.num_selectors - meta.num_selectors,
    p.2.num_instance - meta.num_instance),
   (p.2.equality.drop meta.equality.length).map
     (Col.relativize meta.num_advice meta.num_instance),
   (p.2.gates.drop meta.gates.length).map
     (Gate.relativize meta.num_advice meta.num_selectors))

theorem configureShape_const {F : Type} (meta : ConstraintSystem F) :
    configureShape meta =
      (⟨0, 1, 2, 0, 0⟩, (3, 1, 1),
       [Col.advice 0, Col.advice 1, Col.advice 2, Col.inst 0],
       [⟨"multiplication",
         [Expression.mul (Expression.selectorQ 0)
           (Expression.add
             (Expression.mul (Expression.adviceQ 0 0) (Expression.adviceQ 1 0))
             (Expression.neg (Expression.adviceQ 2 0)))]⟩]) := by
  simp [configureShape, MultiplicationChip.configure,
    ConstraintSystem.advice_column, ConstraintSystem.selector,
    ConstraintSystem.instance_column, ConstraintSystem.enable_equality,
    ConstraintSystem.create_gate, query_selector, query_advice, Rotation.cur,
    Col.relativize, Gate.relativize, Expression.relativize,
    Nat.sub_self, Nat.add_sub_cancel_left, List.drop_left]
  omega

/-- C8: idempotence of configuration.  Configuring twice on the same
builder — the second call running on the builder the first call
returned — produces two structurally identical layouts: the same shape
of advice columns, instance column, selector, equality enablement and
gate expression, each relative to its own allocation base. -/
theorem configure_idempotent {F : Type} [Field F] (meta : ConstraintSystem F) :
    configureShape (MultiplicationChip.configure meta).2 = configureShape meta := by
  rw [configureShape_const, configureShape_const]

/-- C9: implicit single-row layout invariant.  Whenever its region row
is available, `assign` succeeds and every cell it writes — the enabled
selector, `a`, `b`, and the product — sits on the single region row
(offset 0 within the region); the list of written (column, row)
positions is a fixed constant independent of the witness values, and
the floor-planner cursor advances by exactly one row. -/
theorem assign_single_row {F : Type} [Field F] (config : MultiplicationConfig)
    (st : LayouterState F) (a b : F) (h : st.regions_start < st.n) :
    ∃ cell st',
      MultiplicationChip.assign (MultiplicationChip.construct F config) st a b =
        .ok (cell, st') ∧
      st'.advice.map (fun t => (t.1, t.2.1)) =
        [(config.c, st.regions_start), (config.b, st.regions_start),
         (config.a, st.regions_start)] ++ st.advice.map (fun t => (t.1, t.2.1)) ∧
      st'.enabled_selectors =
        (config.selector, st.regions_start) :: st.enabled_selectors ∧
      cell.row = st.regions_start ∧
      st'.regions_start = st.regions_start + 1 := by
  refine ⟨⟨a * b, config.c, st.regions_start⟩,
    { st with
        enabled_selectors := (config.selector, st.regions_start) :: st.enabled_selectors,
        advice := (config.c, st.regions_start, a * b) ::
          (config.b, st.regions_start, b) ::
          (config.a, st.regions_start, a) :: st.advice,
        regions_start := st.regions_start + 1 },
    ?_, rfl, rfl, rfl, rfl⟩
  simp [MultiplicationChip.assign, MultiplicationChip.construct,
    LayouterState.enable_selector, LayouterState.assign_advice, h,
    bind, Except.bind]

/-- Witness for C9: the concrete assignment of `(3, 4)` over `ZMod 5`
on the fresh 16-row state writes every cell on row 0 and advances the
cursor to row 1. -/
theorem assign_single_row_witness :
    ∃ cell st',
      MultiplicationChip.assign (MultiplicationChip.construct (ZMod 5) demoConfig)
        demoState 3 4 = .ok (cell, st') ∧
      st'.advice.map (fun t => (t.1, t.2.1)) =
        [(demoConfig.c, demoState.regions_start),
         (demoConfig.b, demoState.regions_start),
         (demoConfig.a, demoState.regions_start)] ++
          demoState.advice.map (fun t => (t.1, t.2.1)) ∧
      st'.enabled_selectors =
        (demoConfig.selector, demoState.regions_start) :: demoState.enabled_selectors ∧
      cell.row = demoState.regions_start ∧
      st'.regions_start = demoState.regions_start + 1 := by
  haveI : Fact (Nat.Prime 5) := ⟨by norm_num⟩
  exact assign_single_row demoConfig demoState 3 4 (by decide)

/-- C10: `expose_public` is generic over the row index.  Whenever it
succeeds it records exactly one new copy constraint, binding the given
assigned cell to the instance column at the caller-supplied row, and
leaves every other component of the state — advice values, enabled
selectors, table size, equality set, floor-planner cursor — unchanged.
The fixed binding at row 0 in this circuit arises only because
`synthesize` passes `row = 0`. -/
theorem expose_public_generic {F : Type} [Field F] (config : MultiplicationConfig)
    (st : LayouterState F) (cell : AssignedCell F) (row : Nat)
    (st' : LayouterState F)
    (h : MultiplicationChip.expose_public (MultiplicationChip.construct F config)
      st cell row = .ok st') :
    st'.copies = ((cell.col, cell.row), (config.inst, row)) :: st.copies ∧
    st'.advice = st.advice ∧
    st'.enabled_selectors = st.enabled_selectors ∧
    st'.n = st.n ∧
    st'.equality = st.equality ∧
    st'.regions_start = st.regions_start := by
  unfold MultiplicationChip.expose_public MultiplicationChip.construct at h
  split at h
  · split at h
    · simp only [Except.ok.injEq] at h
      subst h
      exact ⟨rfl, rfl, rfl, rfl, rfl, rfl⟩
    · simp at h
  · simp at h

/-- Witness for C10: exposing the concrete product cell over `ZMod 5`
at row 0 appends exactly that copy constraint and changes nothing
else. -/
theorem expose_public_generic_witness :
    demoFinal.copies =
      ((demoCell.col, demoCell.row), (demoConfig.inst, 0)) :: demoMid.copies ∧
    demoFinal.advice = demoMid.advice ∧
    demoFinal.enabled_selectors = demoMid.enabled_selectors ∧
    demoFinal.n = demoMid.n ∧
    demoFinal.equality = demoMid.equality ∧
    demoFinal.regions_start = demoMid.regions_start := by
  haveI : Fact (Nat.Prime 5) := ⟨by norm_num⟩
  exact expose_public_generic demoConfig demoMid demoCell 0 demoFinal rfl
